import Mathlib

/-!
Shallow embedding of `src/heatmap.py` (thoera/heatmap): a pandas/seaborn
script that loads a table of NBA player statistics, min-max normalizes each
column, reorders the columns into three groups (offense, defense, other),
builds three boolean masks, and renders three layered heatmap passes.

Cells of a pandas DataFrame are modelled by `Val` (a rational number, a
string, or NaN).  Numeric values are rationals: the script's arithmetic is
exact on the dataset's decimal inputs, and no claim concerns float rounding.
A DataFrame is a `Table`: an index column, a list of column names, and a
row-major list of rows.
-/

namespace Heatmap

/-- A cell value: a numeric value, a string, or a missing value (NaN). -/
inductive Val where
  | num (q : ℚ)
  | str (s : String)
  | nan
deriving DecidableEq, Repr

/-- Elementwise equality test of pandas (`==`): NaN compares false with
everything, including itself; values of different kinds compare false. -/
def veq : Val → Val → Bool
  | Val.num a, Val.num b => a = b
  | Val.str a, Val.str b => a = b
  | _, _ => false

/-- Whether a cell holds an ordinary (non-missing) numeric value. -/
def Val.isNum : Val → Bool
  | Val.num _ => true
  | _ => false

/-- A raw parsed delimited file: header row plus data rows, in file order
(the default integer index of `pd.read_csv`). -/
structure Raw where
  header : List String
  rows : List (List Val)
deriving Repr

/-- An indexed DataFrame: row index, column names, and rows aligned with
the column names. -/
structure Table where
  index : List Val
  cols : List String
  rows : List (List Val)
deriving Repr

/-- DataFrame.set_index(key): promote the named column to the row index,
removing it from the data columns (`nba.set_index("PLAYER")`, line 12). -/
def set_index (r : Raw) (key : String) : Table :=
  let j := r.header.indexOf key
  { index := r.rows.map (fun row => row.getD j Val.nan)
    cols := r.header.eraseIdx j
    rows := r.rows.map (fun row => row.eraseIdx j) }

/-- DataFrame.drop(key, axis=1): remove the named column
(`.drop("TEAM", axis=1)`, line 12). -/
def dropCol (t : Table) (key : String) : Table :=
  let j := t.cols.indexOf key
  { index := t.index
    cols := t.cols.eraseIdx j
    rows := t.rows.map (fun row => row.eraseIdx j) }

/-- The loader of lines 9-12: read the delimited file, use "PLAYER" as the
index and drop "TEAM". -/
def loadTable (r : Raw) : Table :=
  dropCol (set_index r "PLAYER") "TEAM"

/-- Cell of a table at row position `i`, column position `j`
(out of range reads give NaN, as a guard, never exercised by the claims). -/
def Table.cellIdx (t : Table) (i j : Nat) : Val :=
  (t.rows.getD i []).getD j Val.nan

/-- Column `j` of a table, top to bottom. -/
def Table.colVals (t : Table) (j : Nat) : List Val :=
  t.rows.map (fun row => row.getD j Val.nan)

/-- The numeric values of a list of cells, in order. -/
def numVals (col : List Val) : List ℚ :=
  col.filterMap (fun v => match v with | Val.num q => some q | _ => none)

/-- The numeric values of column `j`. -/
def colQ (t : Table) (j : Nat) : List ℚ :=
  numVals (t.colVals j)

/-- sklearn's `_handle_zeros_in_scale`: `MinMaxScaler.fit` divides by the
column range after replacing a zero range by 1, so a constant column is
scaled by 1 instead of raising a division-by-zero error. -/
def handleZero (r : ℚ) : ℚ :=
  if r = 0 then 1 else r

/-- MinMaxScaler's per-cell transform for a column with observed minimum `m`
and maximum `M`: `x * scale_ + min_` with `scale_ = 1 / handleZero (M - m)`
and `min_ = -m * scale_`, i.e. `(x - m) / handleZero (M - m)`.
Non-numeric cells pass through (the scaler's statistics ignore NaN). -/
def scaleCell (m M : ℚ) : Val → Val
  | Val.num q => Val.num ((q - m) / handleZero (M - m))
  | v => v

/-- The column minimum used by the scaler (0 if the column has no numeric
entry; that fallback is never exercised by the claims). -/
def colMinQ (t : Table) (j : Nat) : ℚ :=
  ((colQ t j).minimum).untop' 0

/-- The column maximum used by the scaler. -/
def colMaxQ (t : Table) (j : Nat) : ℚ :=
  ((colQ t j).maximum).unbot' 0

/-- Lines 15-16: `pd.DataFrame(MinMaxScaler().fit_transform(nba),
index=nba.index, columns=nba.columns)`.  Every column is rescaled by its own
observed minimum and maximum; index and column names are copied over. -/
def normalize (t : Table) : Table :=
  { index := t.index
    cols := t.cols
    rows := t.rows.map (fun row =>
      row.enum.map (fun p => scaleCell (colMinQ t p.1) (colMaxQ t p.1) p.2)) }

/-- Line 50-51: the offense statistic keys. -/
def offenseKeys : List String :=
  ["PTS", "FGM", "FGA", "FG_per", "3PM", "3PA",
   "3P_per", "FTM", "FTA", "FT_per", "AST"]

/-- Line 52: the defense statistic keys. -/
def defenseKeys : List String :=
  ["OREB", "DREB", "REB", "STL", "BLK"]

/-- Lines 53-54: the remaining statistic keys. -/
def otherKeys : List String :=
  ["AGE", "GP", "W", "L", "MIN", "TOV",
   "PF", "DD2", "TD3", "plus_minus"]

/-- The column order after grouping: `offense + defense + other` (line 57). -/
def groupedCols : List String :=
  offenseKeys ++ defenseKeys ++ otherKeys

/-- Column selection `nba[keys]` (line 57): project the table onto the named
columns, in the given order; values and index are untouched. -/
def Table.select (t : Table) (keys : List String) : Table :=
  { index := t.index
    cols := keys
    rows := t.rows.map (fun row => keys.map (fun k => row.getD (t.cols.indexOf k) Val.nan)) }

/-- Line 57: `nba = nba[offense + defense + other]`. -/
def reorder (t : Table) : Table :=
  t.select groupedCols

/-- Lines 60-62: `(nba == nba) & [col not in group for col in nba.columns]`.
The self-comparison `nba == nba` is ANDed cellwise with the per-column
membership test broadcast down each column. -/
def mkMask (t : Table) (group : List String) : List (List Bool) :=
  t.rows.map (fun row =>
    (t.cols.zip row).map (fun p => veq p.2 p.2 && !(group.contains p.1)))

/-- The mask the spec says lines 60-62 amount to for ordinary numeric data:
the bare "column not in group" test, without the self-comparison.  Used only
to state that the self-comparison contributes nothing (C4). -/
def mkMaskNoEq (t : Table) (group : List String) : List (List Bool) :=
  t.rows.map (fun row =>
    (t.cols.zip row).map (fun p => !(group.contains p.1)))

/-- Mask entry at row `i`, column `j` (false out of range). -/
def maskAt (m : List (List Bool)) (i j : Nat) : Bool :=
  (m.getD i []).getD j false

/-- Number of the three render masks that hide cell `(i, j)` of table `t`. -/
def hiddenCountAt (t : Table) (i j : Nat) : Nat :=
  (maskAt (mkMask t offenseKeys) i j).toNat
    + (maskAt (mkMask t defenseKeys) i j).toNat
    + (maskAt (mkMask t otherKeys) i j).toNat

/-- Number of the three render passes in which cell `(i, j)` is visible
(not hidden by that pass's mask). -/
def visibleCountAt (t : Table) (i j : Nat) : Nat :=
  (!(maskAt (mkMask t offenseKeys) i j)).toNat
    + (!(maskAt (mkMask t defenseKeys) i j)).toNat
    + (!(maskAt (mkMask t otherKeys) i j)).toNat

/-- matplotlib's `Axes.set_xticklabels` (lines 25-34 and 75-85): seaborn's
heatmap pins one fixed tick per column, and matplotlib raises a ValueError
("The number of FixedLocator locations ... does not match the number of
ticklabels") when the supplied label list has a different length; it never
truncates or pads.  `nticks` is the number of fixed tick locations, i.e. the
active column count. -/
def set_xticklabels (nticks : Nat) (labels : List String) : Except String (List String) :=
  if labels.length = nticks then Except.ok labels
  else Except.error "shape mismatch: FixedLocator locations and ticklabels differ"

/-- Lines 25-33: the first label vector, positionally aligned with the
table's original column order. -/
def labels1 : List String :=
  ["Age", "Games", "Wins", "Losses", "Minutes",
   "Points", "Field Goals Made", "Field Goals Attempted",
   "Field Goal Percentage", "Three-Point Made",
   "Three-Point Attempted", "Three-Point Percentage",
   "Free Throws Made", "Free Throws Attempted",
   "Free Throw Percentage", "Offensive Rebounds",
   "Defensive Rebounds", "Rebounds", "Assists",
   "Turnovers", "Steals", "Blocks", "Personal Fouls",
   "Double doubles", "Triple doubles", "Plus Minus"]

/-- Lines 75-84: the second label vector, supplied after grouping. -/
def labels2 : List String :=
  ["Points", "Field Goals Made", "Field Goals Attempted",
   "Field Goal Percentage", "Three-Point Made",
   "Three-Point Attempted", "Three-Point Percentage",
   "Free Throws Made", "Free Throws Attempted",
   "Free Throw Percentage", "Assists",
   "Offensive Rebounds", "Defensive Rebounds",
   "Rebounds", "Steals", "Blocks", "Age", "Games",
   "Wins", "Losses", "Minutes", "Turnovers",
   "Personal Fouls", "Double doubles",
   "Triple doubles", "Plus Minus"]

/-- Modelled from the spec: the column order of the source data file
`datasets/nba_top50_2016.txt` (header order after the PLAYER and TEAM
columns are removed), which is not under src/.  The spec fixes a 26-column
schema and states that the first label vector (lines 25-33) is positionally
aligned to this original column order. -/
def origCols : List String :=
  ["AGE", "GP", "W", "L", "MIN",
   "PTS", "FGM", "FGA", "FG_per", "3PM",
   "3PA", "3P_per", "FTM", "FTA", "FT_per",
   "OREB", "DREB", "REB", "AST", "TOV",
   "STL", "BLK", "PF", "DD2", "TD3", "plus_minus"]

/-- The display label of a column key: the entry of the first label vector
at the key's position in the original column order. -/
def labelOf (k : String) : String :=
  labels1.getD (origCols.indexOf k) ""

/-- Cell of a table at row position `i` and column name `c`. -/
def Table.cell (t : Table) (i : Nat) (c : String) : Val :=
  (t.rows.getD i []).getD (t.cols.indexOf c) Val.nan

/-- Column of a raw file by header name, in file order. -/
def Raw.colOf (r : Raw) (key : String) : List Val :=
  r.rows.map (fun row => row.getD (r.header.indexOf key) Val.nan)

/-- The 2-row, 3-stat sample file of the spec's end-to-end scenario:
columns A = [10, 20], B = [0, 5], C = [100, 100]. -/
def sampleRaw : Raw :=
  { header := ["PLAYER", "TEAM", "A", "B", "C"]
    rows := [[Val.str "p1", Val.str "t1", Val.num 10, Val.num 0, Val.num 100],
             [Val.str "p2", Val.str "t2", Val.num 20, Val.num 5, Val.num 100]] }

/-- The sample table: the sample file loaded. -/
def sampleTable : Table :=
  loadTable sampleRaw

/-- A concrete one-row table over the grouped 26-column schema, with cell
values 0, 1, ..., 25, used to exercise the general theorems. -/
def tGrouped : Table :=
  { index := [Val.str "p1"]
    cols := groupedCols
    rows := [(List.range 26).map (fun k => Val.num k)] }

/-- A concrete one-row table over the grouped 26-column schema whose first
cell is missing (NaN). -/
def tMissing : Table :=
  { index := [Val.str "p1"]
    cols := groupedCols
    rows := [Val.nan :: (List.range 25).map (fun k => Val.num k)] }

/-!
### Helper lemmas
-/

lemma veq_self_of_isNum {v : Val} (h : v.isNum = true) : veq v v = true := by
  cases v with
  | num q => simp [veq]
  | str s => simp [veq]
  | nan => simp [Val.isNum] at h

lemma numVals_map_scaleCell (m M : ℚ) (col : List Val) :
    numVals (col.map (scaleCell m M)) =
      (numVals col).map (fun q => (q - m) / handleZero (M - m)) := by
  induction col with
  | nil => rfl
  | cons v rest ih =>
    cases v with
    | num q => simpa [numVals, scaleCell] using ih
    | str s => simpa [numVals, scaleCell] using ih
    | nan => simpa [numVals, scaleCell] using ih

lemma scaleCell_nan (m M : ℚ) : scaleCell m M Val.nan = Val.nan := rfl

lemma colVals_normalize (t : Table) (j : Nat) :
    (normalize t).colVals j =
      (t.colVals j).map (scaleCell (colMinQ t j) (colMaxQ t j)) := by
  unfold Table.colVals normalize
  simp only [List.map_map]
  apply List.map_congr_left
  intro row _
  by_cases hj : j < row.length
  · have hj' : j <
        (row.enum.map
          (fun p => scaleCell (colMinQ t p.1) (colMaxQ t p.1) p.2)).length := by
      simpa [List.enum_length] using hj
    simp only [Function.comp]
    rw [List.getD_eq_getElem _ _ hj', List.getElem_map, List.getElem_enum,
      List.getD_eq_getElem _ _ hj]
  · have hj1 : row.length ≤ j := Nat.le_of_not_lt hj
    have hj2 :
        (row.enum.map
          (fun p => scaleCell (colMinQ t p.1) (colMaxQ t p.1) p.2)).length ≤ j := by
      simpa [List.enum_length] using hj1
    simp only [Function.comp]
    rw [List.getD_eq_default _ _ hj2, List.getD_eq_default _ _ hj1, scaleCell_nan]

lemma colQ_normalize (t : Table) (j : Nat) :
    colQ (normalize t) j =
      (colQ t j).map
        (fun q => (q - colMinQ t j) / handleZero (colMaxQ t j - colMinQ t j)) := by
  unfold colQ
  rw [colVals_normalize, numVals_map_scaleCell]

lemma maskAt_rowwise (f : String → Val → Bool) (t : Table) (i j : Nat)
    (hi : i < t.rows.length) (hj : j < t.cols.length)
    (hlen : (t.rows.getD i []).length = t.cols.length) :
    maskAt (t.rows.map (fun row => (t.cols.zip row).map (fun p => f p.1 p.2))) i j =
      f (t.cols.getD j "") (t.cellIdx i j) := by
  have hrow : t.rows.getD i [] = t.rows[i] := List.getD_eq_getElem _ _ hi
  have hlen' : (t.rows[i]).length = t.cols.length := by rw [← hrow]; exact hlen
  have hi2 : i <
      (t.rows.map (fun row => (t.cols.zip row).map (fun p => f p.1 p.2))).length := by
    simpa using hi
  have hzip : (t.cols.zip (t.rows[i])).length = t.cols.length := by
    simp [List.length_zip, hlen']
  have hj2 : j < ((t.cols.zip (t.rows[i])).map (fun p => f p.1 p.2)).length := by
    simpa [hzip] using hj
  have hj3 : j < (t.cols.zip (t.rows[i])).length := by rw [hzip]; exact hj
  have hjrow : j < (t.rows[i]).length := by rw [hlen']; exact hj
  unfold maskAt Table.cellIdx
  rw [List.getD_eq_getElem _ _ hi2, List.getElem_map,
    List.getD_eq_getElem _ _ hj2, List.getElem_map, List.getElem_zip]
  rw [hrow, List.getD_eq_getElem _ _ hjrow, List.getD_eq_getElem _ _ hj]

lemma maskAt_mkMask (t : Table) (g : List String) (i j : Nat)
    (hi : i < t.rows.length) (hj : j < t.cols.length)
    (hlen : (t.rows.getD i []).length = t.cols.length) :
    maskAt (mkMask t g) i j =
      (veq (t.cellIdx i j) (t.cellIdx i j) && !(g.contains (t.cols.getD j ""))) := by
  have h := maskAt_rowwise (fun c v => veq v v && !(g.contains c)) t i j hi hj hlen
  simpa [mkMask] using h

lemma maskAt_mkMaskNoEq (t : Table) (g : List String) (i j : Nat)
    (hi : i < t.rows.length) (hj : j < t.cols.length)
    (hlen : (t.rows.getD i []).length = t.cols.length) :
    maskAt (mkMaskNoEq t g) i j = !(g.contains (t.cols.getD j "")) := by
  have h := maskAt_rowwise (fun c _ => !(g.contains c)) t i j hi hj hlen
  simpa [mkMaskNoEq] using h

lemma group_membership_unique :
    ∀ c ∈ groupedCols,
      (offenseKeys.contains c).toNat + (defenseKeys.contains c).toNat
        + (otherKeys.contains c).toNat = 1 := by decide

lemma cellIdx_isNum (t : Table) (i j : Nat)
    (hnum : ∀ row ∈ t.rows, ∀ v ∈ row, v.isNum = true)
    (hlen : ∀ row ∈ t.rows, row.length = t.cols.length)
    (hi : i < t.rows.length) (hj : j < t.cols.length) :
    (t.cellIdx i j).isNum = true := by
  have hrow : t.rows.getD i [] = t.rows[i] := List.getD_eq_getElem _ _ hi
  have hmem : t.rows[i] ∈ t.rows := List.getElem_mem hi
  have hjrow : j < (t.rows[i]).length := by rw [hlen _ hmem]; exact hj
  unfold Table.cellIdx
  rw [hrow, List.getD_eq_getElem _ _ hjrow]
  exact hnum _ hmem _ (List.getElem_mem hjrow)

lemma colAt_mem_grouped (t : Table) (j : Nat)
    (hcols : t.cols = groupedCols) (hj : j < t.cols.length) :
    t.cols.getD j "" ∈ groupedCols := by
  rw [← hcols, List.getD_eq_getElem _ _ hj]
  exact List.getElem_mem hj

lemma normalize_sample_rows :
    (normalize sampleTable).rows =
      [[Val.num 0, Val.num 0, Val.num 0], [Val.num 1, Val.num 1, Val.num 0]] := by
  have h0 : colMinQ sampleTable 0 = 10 := by rfl
  have h1 : colMinQ sampleTable 1 = 0 := by rfl
  have h2 : colMinQ sampleTable 2 = 100 := by rfl
  have g0 : colMaxQ sampleTable 0 = 20 := by rfl
  have g1 : colMaxQ sampleTable 1 = 5 := by rfl
  have g2 : colMaxQ sampleTable 2 = 100 := by rfl
  simp [normalize, sampleTable, loadTable, set_index, dropCol, sampleRaw, List.enum,
    List.enumFrom] at h0 h1 h2 g0 g1 g2 ⊢
  simp only [h0, h1, h2, g0, g1, g2]
  norm_num [scaleCell, handleZero]

/-!
### Claim theorems
-/

/-- C6: normalization preserves the table's row identity (index) and column
names exactly — same index values in the same order, same column names in
the same order — and the shape is unchanged (same number of rows, each row
of the same length); only cell values change.  The embedding is a pure
function of the input table, so it has no side effect on its input. -/
theorem normalize_preserves_frame (t : Table) :
    (normalize t).index = t.index ∧ (normalize t).cols = t.cols
      ∧ (normalize t).rows.length = t.rows.length
      ∧ ∀ i : Nat, ((normalize t).rows.getD i []).length = (t.rows.getD i []).length := by
  refine ⟨rfl, rfl, by simp [normalize], ?_⟩
  intro i
  by_cases hi : i < t.rows.length
  · have hi' : i < (normalize t).rows.length := by simpa [normalize] using hi
    rw [List.getD_eq_getElem _ _ hi', List.getD_eq_getElem _ _ hi]
    simp [normalize, List.enum_length]
  · have h1 : t.rows.length ≤ i := Nat.le_of_not_lt hi
    have h2 : (normalize t).rows.length ≤ i := by simpa [normalize] using h1
    rw [List.getD_eq_default _ _ h2, List.getD_eq_default _ _ h1]

/-- C8: supplying a label vector whose length differs from the number of
fixed tick locations (the active column count) makes the renderer's
`set_xticklabels` raise a shape-mismatch failure; it never truncates or
pads the labels. -/
theorem set_xticklabels_mismatch (nticks : Nat) (labels : List String)
    (h : labels.length ≠ nticks) :
    set_xticklabels nticks labels =
      Except.error "shape mismatch: FixedLocator locations and ticklabels differ" := by
  simp [set_xticklabels, h]

/-- Witness for C8: 25 labels against the 26-column table raise the
shape-mismatch failure. -/
theorem set_xticklabels_mismatch_witness :
    (labels1.take 25).length ≠ 26 ∧
      set_xticklabels 26 (labels1.take 25) =
        Except.error "shape mismatch: FixedLocator locations and ticklabels differ" :=
  ⟨by decide, set_xticklabels_mismatch 26 (labels1.take 25) (by decide)⟩

/-- Counterexample for C3: normalizing the spec's sample table
`{A: [10, 20], B: [0, 5], C: [100, 100]}` does NOT fail on the zero-range
column C — `MinMaxScaler` replaces a zero range by 1 before dividing — and
yields the fully defined column C → [0, 0], every cell of it an ordinary
number. -/
theorem zero_range_column_defined :
    (normalize sampleTable).colVals 2 = [Val.num 0, Val.num 0] ∧
      ∀ v ∈ (normalize sampleTable).colVals 2, v.isNum = true := by
  have h2 : (normalize sampleTable).colVals 2 = [Val.num 0, Val.num 0] := by
    unfold Table.colVals
    rw [normalize_sample_rows]
    rfl
  refine ⟨h2, ?_⟩
  rw [h2]
  decide

/-- C3 as amended: a zero-range (constant) column does not raise a
division-by-zero error; sklearn's `MinMaxScaler` substitutes 1 for the zero
range, mapping the constant column to all zeros.  On the sample table
`{A: [10, 20], B: [0, 5], C: [100, 100]}` normalization yields
A → [0, 1], B → [0, 1] and C → [0, 0]. -/
theorem zero_range_column_all_zero :
    (normalize sampleTable).rows =
      [[Val.num 0, Val.num 0, Val.num 0], [Val.num 1, Val.num 1, Val.num 0]] :=
  normalize_sample_rows

/-- C10: the second (post-grouping) label vector is exactly the first label
vector permuted by the grouping permutation of the columns: each of its
entries is the label of the column key at the same position of the
reordered order `offense ++ defense ++ other` (and the first vector aligns
the same way with the original column order), and the two vectors hold the
same 26 strings as multisets. -/
theorem labels_follow_column_permutation :
    labels2 = groupedCols.map labelOf ∧ labels1 = origCols.map labelOf ∧
      labels1.Perm labels2 :=
  ⟨by decide, by decide, by decide⟩

/-- C1: for the fixed offense/defense/other key lists and the 26-column
schema, every (in-range, ordinary numeric) cell of the reordered table is
marked hidden by exactly two of the three masks and left visible by exactly
one: the three group lists are disjoint and exhaustive over the table's
columns. -/
theorem masks_partition_cells (t : Table) (i j : Nat)
    (hcols : t.cols = groupedCols)
    (hnum : ∀ row ∈ t.rows, ∀ v ∈ row, v.isNum = true)
    (hlen : ∀ row ∈ t.rows, row.length = t.cols.length)
    (hi : i < t.rows.length) (hj : j < t.cols.length) :
    hiddenCountAt t i j = 2 ∧ visibleCountAt t i j = 1 := by
  have hrow : t.rows.getD i [] = t.rows[i] := List.getD_eq_getElem _ _ hi
  have hlen' : (t.rows.getD i []).length = t.cols.length := by
    rw [hrow]; exact hlen _ (List.getElem_mem hi)
  have hv : veq (t.cellIdx i j) (t.cellIdx i j) = true :=
    veq_self_of_isNum (cellIdx_isNum t i j hnum hlen hi hj)
  have hsum := group_membership_unique _ (colAt_mem_grouped t j hcols hj)
  have e1 := maskAt_mkMask t offenseKeys i j hi hj hlen'
  have e2 := maskAt_mkMask t defenseKeys i j hi hj hlen'
  have e3 := maskAt_mkMask t otherKeys i j hi hj hlen'
  rw [hv, Bool.true_and] at e1 e2 e3
  unfold hiddenCountAt visibleCountAt
  rw [e1, e2, e3]
  revert hsum
  cases offenseKeys.contains (t.cols.getD j "") <;>
    cases defenseKeys.contains (t.cols.getD j "") <;>
      cases otherKeys.contains (t.cols.getD j "") <;> decide

/-- Witness for C1 at a concrete one-row table over the grouped schema. -/
theorem masks_partition_cells_witness :
    (tGrouped.cols = groupedCols
      ∧ (∀ row ∈ tGrouped.rows, ∀ v ∈ row, v.isNum = true)
      ∧ (∀ row ∈ tGrouped.rows, row.length = tGrouped.cols.length)
      ∧ 0 < tGrouped.rows.length ∧ 0 < tGrouped.cols.length)
      ∧ hiddenCountAt tGrouped 0 0 = 2 ∧ visibleCountAt tGrouped 0 0 = 1 :=
  ⟨⟨by decide, by decide, by decide, by decide, by decide⟩,
    masks_partition_cells tGrouped 0 0 (by decide) (by decide) (by decide)
      (by decide) (by decide)⟩

/-- C4: for each of the three groups and each in-range cell holding an
ordinary numeric value, the group's mask is true exactly when the cell's
column key is not in the group; the ANDed self-comparison evaluates to true
there and has no effect (the mask coincides with the one built from the
bare membership test alone). -/
theorem mask_is_not_in_group (t : Table) (g : List String) (i j : Nat)
    (hg : g = offenseKeys ∨ g = defenseKeys ∨ g = otherKeys)
    (hcols : t.cols = groupedCols)
    (hlen : ∀ row ∈ t.rows, row.length = t.cols.length)
    (hi : i < t.rows.length) (hj : j < t.cols.length)
    (hv : (t.cellIdx i j).isNum = true) :
    veq (t.cellIdx i j) (t.cellIdx i j) = true
      ∧ (maskAt (mkMask t g) i j = true ↔ t.cols.getD j "" ∉ g)
      ∧ maskAt (mkMask t g) i j = maskAt (mkMaskNoEq t g) i j := by
  have hrow : t.rows.getD i [] = t.rows[i] := List.getD_eq_getElem _ _ hi
  have hlen' : (t.rows.getD i []).length = t.cols.length := by
    rw [hrow]; exact hlen _ (List.getElem_mem hi)
  have hveq := veq_self_of_isNum hv
  have e := maskAt_mkMask t g i j hi hj hlen'
  have e' := maskAt_mkMaskNoEq t g i j hi hj hlen'
  rw [hveq, Bool.true_and] at e
  refine ⟨hveq, ?_, by rw [e, e']⟩
  rw [e]
  simp

/-- Witness for C4 at a concrete one-row table over the grouped schema,
with the offense group. -/
theorem mask_is_not_in_group_witness :
    ((offenseKeys = offenseKeys ∨ offenseKeys = defenseKeys ∨ offenseKeys = otherKeys)
      ∧ tGrouped.cols = groupedCols
      ∧ (∀ row ∈ tGrouped.rows, row.length = tGrouped.cols.length)
      ∧ 0 < tGrouped.rows.length ∧ 0 < tGrouped.cols.length
      ∧ (tGrouped.cellIdx 0 0).isNum = true)
      ∧ veq (tGrouped.cellIdx 0 0) (tGrouped.cellIdx 0 0) = true
      ∧ (maskAt (mkMask tGrouped offenseKeys) 0 0 = true ↔
          tGrouped.cols.getD 0 "" ∉ offenseKeys)
      ∧ maskAt (mkMask tGrouped offenseKeys) 0 0 =
          maskAt (mkMaskNoEq tGrouped offenseKeys) 0 0 :=
  ⟨⟨Or.inl rfl, by decide, by decide, by decide, by decide, by decide⟩,
    mask_is_not_in_group tGrouped offenseKeys 0 0 (Or.inl rfl) (by decide)
      (by decide) (by decide) (by decide) (by decide)⟩

/-- C9 (implicit): at a missing (NaN) cell the self-comparison is false, so
all three masks are false there: the cell is left visible in every one of
the three render passes — the opposite of masking it — and the
exactly-two-hidden (one-visible) property of C1 fails at that cell. -/
theorem missing_cell_unmasked (t : Table) (i j : Nat)
    (hcols : t.cols = groupedCols)
    (hlen : ∀ row ∈ t.rows, row.length = t.cols.length)
    (hi : i < t.rows.length) (hj : j < t.cols.length)
    (hnan : t.cellIdx i j = Val.nan) :
    maskAt (mkMask t offenseKeys) i j = false
      ∧ maskAt (mkMask t defenseKeys) i j = false
      ∧ maskAt (mkMask t otherKeys) i j = false
      ∧ visibleCountAt t i j = 3 ∧ hiddenCountAt t i j ≠ 2 := by
  have hrow : t.rows.getD i [] = t.rows[i] := List.getD_eq_getElem _ _ hi
  have hlen' : (t.rows.getD i []).length = t.cols.length := by
    rw [hrow]; exact hlen _ (List.getElem_mem hi)
  have e1 := maskAt_mkMask t offenseKeys i j hi hj hlen'
  have e2 := maskAt_mkMask t defenseKeys i j hi hj hlen'
  have e3 := maskAt_mkMask t otherKeys i j hi hj hlen'
  rw [hnan] at e1 e2 e3
  simp only [veq, Bool.false_and] at e1 e2 e3
  refine ⟨e1, e2, e3, ?_, ?_⟩
  · unfold visibleCountAt
    rw [e1, e2, e3]
    rfl
  · unfold hiddenCountAt
    rw [e1, e2, e3]
    decide

/-- Witness for C9 at a concrete table whose first cell is NaN. -/
theorem missing_cell_unmasked_witness :
    (tMissing.cols = groupedCols
      ∧ (∀ row ∈ tMissing.rows, row.length = tMissing.cols.length)
      ∧ 0 < tMissing.rows.length ∧ 0 < tMissing.cols.length
      ∧ tMissing.cellIdx 0 0 = Val.nan)
      ∧ maskAt (mkMask tMissing offenseKeys) 0 0 = false
      ∧ maskAt (mkMask tMissing defenseKeys) 0 0 = false
      ∧ maskAt (mkMask tMissing otherKeys) 0 0 = false
      ∧ visibleCountAt tMissing 0 0 = 3 ∧ hiddenCountAt tMissing 0 0 ≠ 2 :=
  ⟨⟨by decide, by decide, by decide, by decide, by decide⟩,
    missing_cell_unmasked tMissing 0 0 (by decide) (by decide) (by decide)
      (by decide) (by decide)⟩

/-- C5: reordering the columns after grouping is a pure projection.  When
the table's columns are a permutation of `offense ++ defense ++ other`
(the fixed schema), the reordered table's column names are a permutation of
the original ones (same multiset), the row index is unchanged (same row
identities in the same order), the number of rows is unchanged, and every
cell, addressed by row position and column name, keeps its value. -/
theorem reorder_is_permutation (t : Table)
    (hperm : t.cols.Perm groupedCols) :
    ((reorder t).cols).Perm t.cols
      ∧ (reorder t).index = t.index
      ∧ (reorder t).rows.length = t.rows.length
      ∧ ∀ i : Nat, ∀ c ∈ groupedCols, (reorder t).cell i c = t.cell i c := by
  refine ⟨hperm.symm, rfl, by simp [reorder, Table.select], ?_⟩
  intro i c hc
  unfold Table.cell reorder Table.select
  simp only
  have hidx : groupedCols.indexOf c < groupedCols.length :=
    List.indexOf_lt_length.2 hc
  by_cases hi : i < t.rows.length
  · have hi' : i < (t.rows.map (fun row =>
        groupedCols.map (fun k => row.getD (t.cols.indexOf k) Val.nan))).length := by
      simpa using hi
    rw [List.getD_eq_getElem _ _ hi', List.getElem_map,
      List.getD_eq_getElem _ _ hi]
    have hidx' : groupedCols.indexOf c <
        (groupedCols.map (fun k => (t.rows[i]).getD (t.cols.indexOf k) Val.nan)).length := by
      simpa using hidx
    rw [List.getD_eq_getElem _ _ hidx', List.getElem_map, List.getElem_indexOf hidx]
  · have h1 : t.rows.length ≤ i := Nat.le_of_not_lt hi
    have h2 : (t.rows.map (fun row =>
        groupedCols.map (fun k => row.getD (t.cols.indexOf k) Val.nan))).length ≤ i := by
      simpa using h1
    rw [List.getD_eq_default _ _ h2, List.getD_eq_default _ _ h1]
    rfl

/-- Witness for C5 at a concrete one-row table over the grouped schema. -/
theorem reorder_is_permutation_witness :
    tGrouped.cols.Perm groupedCols
      ∧ ((reorder tGrouped).cols).Perm tGrouped.cols
      ∧ (reorder tGrouped).index = tGrouped.index
      ∧ (reorder tGrouped).cell 0 "AGE" = tGrouped.cell 0 "AGE" :=
  ⟨by decide, (reorder_is_permutation tGrouped (by decide)).1,
    (reorder_is_permutation tGrouped (by decide)).2.1,
    (reorder_is_permutation tGrouped (by decide)).2.2.2 0 "AGE" (by decide)⟩

/-- C7: the loader, on a parseable file whose header contains the identity
column "PLAYER" and the dropped column "TEAM" (header names unique),
produces a table whose column order is the file's header order with the
dropped column removed (and the identity column removed from the data
columns by its promotion to the row index), whose row index is the identity
column's values in file order, and which has one row per file row, in file
order. -/
theorem loadTable_shape (r : Raw)
    (hP : "PLAYER" ∈ r.header) (hT : "TEAM" ∈ r.header)
    (hnd : r.header.Nodup) :
    (loadTable r).cols = r.header.filter (fun c => c != "TEAM" && c != "PLAYER")
      ∧ (loadTable r).index = r.colOf "PLAYER"
      ∧ (loadTable r).rows.length = r.rows.length := by
  refine ⟨?_, rfl, by simp [loadTable, set_index, dropCol]⟩
  have e1 : (loadTable r).cols = (r.header.erase "PLAYER").erase "TEAM" := by
    simp [loadTable, set_index, dropCol]
  rw [e1, List.Nodup.erase_eq_filter hnd, List.Nodup.erase_eq_filter (hnd.filter _),
    List.filter_filter]

/-- Witness for C7 at the concrete sample file. -/
theorem loadTable_shape_witness :
    ("PLAYER" ∈ sampleRaw.header ∧ "TEAM" ∈ sampleRaw.header ∧ sampleRaw.header.Nodup)
      ∧ (loadTable sampleRaw).cols =
          sampleRaw.header.filter (fun c => c != "TEAM" && c != "PLAYER")
      ∧ (loadTable sampleRaw).index = sampleRaw.colOf "PLAYER"
      ∧ (loadTable sampleRaw).rows.length = sampleRaw.rows.length :=
  ⟨⟨by decide, by decide, by decide⟩,
    loadTable_shape sampleRaw (by decide) (by decide) (by decide)⟩

/-- C2: normalization maps every column by
`value → (value − column_min) / (column_max − column_min)` using that
column's own observed minimum and maximum, so every non-constant column
(minimum strictly below maximum) ends with minimum value 0 and maximum
value 1. -/
theorem normalize_minmax (t : Table) (j : Nat) (m M : ℚ)
    (hm : (colQ t j).minimum = (m : WithTop ℚ))
    (hM : (colQ t j).maximum = (M : WithBot ℚ))
    (hlt : m < M) :
    colQ (normalize t) j = (colQ t j).map (fun q => (q - m) / (M - m))
      ∧ (colQ (normalize t) j).minimum = ((0 : ℚ) : WithTop ℚ)
      ∧ (colQ (normalize t) j).maximum = ((1 : ℚ) : WithBot ℚ) := by
  have hm' : colMinQ t j = m := by rw [colMinQ, hm, WithTop.untop'_coe]
  have hM' : colMaxQ t j = M := by rw [colMaxQ, hM, WithBot.unbot'_coe]
  have hsub : (0 : ℚ) < M - m := sub_pos.2 hlt
  have hz : handleZero (M - m) = M - m := by
    rw [handleZero, if_neg (sub_ne_zero_of_ne (ne_of_gt hlt))]
  have hmap : colQ (normalize t) j = (colQ t j).map (fun q => (q - m) / (M - m)) := by
    rw [colQ_normalize, hm', hM', hz]
  rw [List.minimum_eq_coe_iff] at hm
  rw [List.maximum_eq_coe_iff] at hM
  obtain ⟨hmem_m, hlb⟩ := hm
  obtain ⟨hmem_M, hub⟩ := hM
  refine ⟨hmap, ?_, ?_⟩
  · rw [hmap, List.minimum_eq_coe_iff]
    constructor
    · exact List.mem_map.2 ⟨m, hmem_m, by rw [sub_self, zero_div]⟩
    · intro a ha
      obtain ⟨q, hq, rfl⟩ := List.mem_map.1 ha
      exact div_nonneg (sub_nonneg.2 (hlb q hq)) hsub.le
  · rw [hmap, List.maximum_eq_coe_iff]
    constructor
    · exact List.mem_map.2 ⟨M, hmem_M, div_self hsub.ne'⟩
    · intro a ha
      obtain ⟨q, hq, rfl⟩ := List.mem_map.1 ha
      rw [div_le_one hsub]
      exact sub_le_sub_right (hub q hq) m

/-- Witness for C2 at column A = [10, 20] of the concrete sample table. -/
theorem normalize_minmax_witness :
    ((colQ sampleTable 0).minimum = ((10 : ℚ) : WithTop ℚ)
      ∧ (colQ sampleTable 0).maximum = ((20 : ℚ) : WithBot ℚ)
      ∧ (10 : ℚ) < 20)
      ∧ (colQ (normalize sampleTable) 0).minimum = ((0 : ℚ) : WithTop ℚ)
      ∧ (colQ (normalize sampleTable) 0).maximum = ((1 : ℚ) : WithBot ℚ) :=
  ⟨⟨by decide, by decide, by decide⟩,
    (normalize_minmax sampleTable 0 10 20 (by decide) (by decide) (by decide)).2⟩

end Heatmap
